import Mathlib

/-!
# Verification of the ImagePasswordApp core pipeline

A shallow embedding of the image-password system: the perceptual (average)
hash of `src/js/image-password.js`, the credential derivation by SHA-256,
the synthetic image generator and the provenance-branched verification of
`src/js/app.js`, together with proofs of the specified properties.

Platform primitives that the JavaScript delegates to are modelled
faithfully:
* `crypto.subtle.digest('SHA-256', ·)` is modelled by a full FIPS 180-4
  SHA-256 implementation over byte lists (`Nat` values `< 256`), with
  32-bit words as `Nat` reduced by `% 2 ^ 32`;
* the browser image pipeline (`FileReader`/`Image`/canvas `drawImage` +
  `getImageData`) is modelled by the value it delivers to the repository
  code: an image file either fails to decode, or yields a decoded image
  carrying its dimensions and the 8×8 RGBA pixel data (256 bytes) that
  `getImageData(0, 0, 8, 8)` returns after the grayscale draw.
JavaScript `Number` arithmetic on the average is exact here: the average
is `sum / 64` with `sum ≤ 64 * 255`, which binary floating point
represents exactly, so `ℚ` reproduces it bit-for-bit.
-/

namespace ImagePasswordApp

/-! ## SHA-256 (FIPS 180-4), the digest behind `crypto.subtle.digest` -/

/-- Truncation to a 32-bit word. -/
def w32 (n : Nat) : Nat := n % 2 ^ 32

/-- Right rotation of a 32-bit word by `n` bits. -/
def rotr (n x : Nat) : Nat := w32 ((x >>> n) ||| (x <<< (32 - n)))

/-- Choice function `Ch(x,y,z) = (x ∧ y) ⊕ (¬x ∧ z)` on 32-bit words. -/
def shaCh (x y z : Nat) : Nat := (x &&& y) ^^^ ((x ^^^ 0xffffffff) &&& z)

/-- Majority function `Maj(x,y,z) = (x ∧ y) ⊕ (x ∧ z) ⊕ (y ∧ z)`. -/
def shaMaj (x y z : Nat) : Nat := (x &&& y) ^^^ (x &&& z) ^^^ (y &&& z)

/-- Big sigma-0. -/
def bsig0 (x : Nat) : Nat := rotr 2 x ^^^ rotr 13 x ^^^ rotr 22 x

/-- Big sigma-1. -/
def bsig1 (x : Nat) : Nat := rotr 6 x ^^^ rotr 11 x ^^^ rotr 25 x

/-- Small sigma-0. -/
def ssig0 (x : Nat) : Nat := rotr 7 x ^^^ rotr 18 x ^^^ (x >>> 3)

/-- Small sigma-1. -/
def ssig1 (x : Nat) : Nat := rotr 17 x ^^^ rotr 19 x ^^^ (x >>> 10)

/-- The 64 SHA-256 round constants (FIPS 180-4 §4.2.2, in decimal). -/
def shaK : List Nat :=
  [1116352408, 1899447441, 3049323471, 3921009573, 961987163,
   1508970993, 2453635748, 2870763221, 3624381080, 310598401,
   607225278, 1426881987, 1925078388, 2162078206, 2614888103,
   3248222580, 3835390401, 4022224774, 264347078, 604807628,
   770255983, 1249150122, 1555081692, 1996064986, 2554220882,
   2821834349, 2952996808, 3210313671, 3336571891, 3584528711,
   113926993, 338241895, 666307205, 773529912, 1294757372,
   1396182291, 1695183700, 1986661051, 2177026350, 2456956037,
   2730485921, 2820302411, 3259730800, 3345764771, 3516065817,
   3600352804, 4094571909, 275423344, 430227734, 506948616,
   659060556, 883997877, 958139571, 1322822218, 1537002063,
   1747873779, 1955562222, 2024104815, 2227730452, 2361852424,
   2428436474, 2756734187, 3204031479, 3329325298]

/-- The eight-word SHA-256 hash state. -/
structure Sha256State where
  a0 : Nat
  a1 : Nat
  a2 : Nat
  a3 : Nat
  a4 : Nat
  a5 : Nat
  a6 : Nat
  a7 : Nat

/-- The SHA-256 initial hash value (FIPS 180-4 §5.3.3, in decimal). -/
def shaInit : Sha256State :=
  ⟨1779033703, 3144134277, 1013904242, 2773480762,
   1359893119, 2600822924, 528734635, 1541459225⟩

/-- Big-endian 8-byte serialization of a 64-bit length field. -/
def u64be (x : Nat) : List Nat :=
  [(x >>> 56) % 256, (x >>> 48) % 256, (x >>> 40) % 256, (x >>> 32) % 256,
   (x >>> 24) % 256, (x >>> 16) % 256, (x >>> 8) % 256, x % 256]

/-- Big-endian 4-byte serialization of a 32-bit word. -/
def u32be (x : Nat) : List Nat :=
  [(x >>> 24) % 256, (x >>> 16) % 256, (x >>> 8) % 256, x % 256]

/-- FIPS 180-4 §5.1.1 padding: append `0x80`, zero bytes, and the 64-bit
big-endian bit length, reaching a multiple of 64 bytes. -/
def shaPad (msg : List Nat) : List Nat :=
  msg ++ [0x80] ++ List.replicate ((64 - (msg.length + 9) % 64) % 64) 0
      ++ u64be (8 * msg.length)

/-- The big-endian 32-bit word of a block starting at byte offset `o`. -/
def wordAt (block : List Nat) (o : Nat) : Nat :=
  (block.getD o 0 <<< 24) ||| (block.getD (o + 1) 0 <<< 16) |||
    (block.getD (o + 2) 0 <<< 8) ||| block.getD (o + 3) 0

/-- The 64-entry message schedule of one 64-byte block. -/
def schedule (block : List Nat) : List Nat :=
  let w16 := (List.range 16).map (fun t => wordAt block (t * 4))
  (List.range 48).foldl
    (fun w i =>
      let t := 16 + i
      w ++ [w32 (ssig1 (w.getD (t - 2) 0) + w.getD (t - 7) 0 +
                 ssig0 (w.getD (t - 15) 0) + w.getD (t - 16) 0)])
    w16

/-- One round of the SHA-256 compression function, with round index `t`
selecting the round constant and schedule word. -/
def shaRound (w : List Nat) (s : Sha256State) (t : Nat) : Sha256State :=
  let t1 := w32 (s.a7 + bsig1 s.a4 + shaCh s.a4 s.a5 s.a6 + shaK.getD t 0 + w.getD t 0)
  let t2 := w32 (bsig0 s.a0 + shaMaj s.a0 s.a1 s.a2)
  ⟨w32 (t1 + t2), s.a0, s.a1, s.a2, w32 (s.a3 + t1), s.a4, s.a5, s.a6⟩

/-- Process one 64-byte block. -/
def compressBlock (st : Sha256State) (block : List Nat) : Sha256State :=
  let w := schedule block
  let r := (List.range 64).foldl (shaRound w) st
  ⟨w32 (st.a0 + r.a0), w32 (st.a1 + r.a1), w32 (st.a2 + r.a2), w32 (st.a3 + r.a3),
   w32 (st.a4 + r.a4), w32 (st.a5 + r.a5), w32 (st.a6 + r.a6), w32 (st.a7 + r.a7)⟩

/-- SHA-256 digest of a byte list, as 32 bytes. -/
def sha256Bytes (msg : List Nat) : List Nat :=
  let padded := shaPad msg
  let fin := (List.range (padded.length / 64)).foldl
    (fun st b => compressBlock st ((padded.drop (b * 64)).take 64)) shaInit
  u32be fin.a0 ++ u32be fin.a1 ++ u32be fin.a2 ++ u32be fin.a3 ++
    u32be fin.a4 ++ u32be fin.a5 ++ u32be fin.a6 ++ u32be fin.a7

/-- UTF-8 encoding of one Unicode code point (what `TextEncoder.encode`
emits per character). -/
def utf8EncodeChar (c : Nat) : List Nat :=
  if c < 0x80 then [c]
  else if c < 0x800 then
    [0xc0 ||| (c >>> 6), 0x80 ||| (c &&& 0x3f)]
  else if c < 0x10000 then
    [0xe0 ||| (c >>> 12), 0x80 ||| ((c >>> 6) &&& 0x3f), 0x80 ||| (c &&& 0x3f)]
  else
    [0xf0 ||| (c >>> 18), 0x80 ||| ((c >>> 12) &&& 0x3f),
     0x80 ||| ((c >>> 6) &&& 0x3f), 0x80 ||| (c &&& 0x3f)]

/-- UTF-8 bytes of a string, as produced by `new TextEncoder().encode(message)`. -/
def utf8Encode (s : String) : List Nat :=
  s.data.flatMap (fun c => utf8EncodeChar c.toNat)

/-- JavaScript `b.toString(16).padStart(2, '0')` for a byte: lowercase hex,
left-padded with `'0'` to two characters. -/
def byteToHexPair (b : Nat) : List Char :=
  let ds := Nat.toDigits 16 b
  List.replicate (2 - ds.length) '0' ++ ds

/-- Hex rendering `hashArray.map(b => b.toString(16).padStart(2, '0')).join('')`. -/
def bytesToHex (bytes : List Nat) : String :=
  ⟨bytes.flatMap byteToHexPair⟩

/-- Method `ImagePasswordSystem.sha256` (src/js/image-password.js lines 83–90):
UTF-8 encode the message, digest it with SHA-256, hex-encode lowercase. -/
def sha256 (message : String) : String :=
  bytesToHex (sha256Bytes (utf8Encode message))

/-! ## The image model

The browser pipeline `FileReader` → `Image` → `drawImage` on an 8×8
canvas → `getImageData(0, 0, 8, 8)` is platform code.  It is modelled by
the value it hands to the repository code: a file either fails to decode
(`loadImage` rejects with `'Failed to load image'`), or yields a decoded
image with its intrinsic dimensions and the 256-byte RGBA array that
`getImageData` returns after the grayscale draw (`8 · 8 · 4` entries,
always, whatever was drawn). -/

/-- The `Uint8ClampedArray` returned by `getImageData(0, 0, 8, 8)`:
a flat RGBA byte list with `8 * 8 * 4 = 256` entries. -/
def PixelData := { l : List Nat // l.length = 8 * 8 * 4 }

/-- A successfully decoded image: its intrinsic `width`/`height` (the
code logs but never checks them) and the normalized 8×8 RGBA pixel data
the platform draw produces for it. -/
structure DecodedImage where
  width : Nat
  height : Nat
  pixelData : PixelData

/-- An image file, by its decode result: `none` when `loadImage` rejects. -/
abbrev ImageFile := Option DecodedImage

/-! ## AverageHasher (src/js/image-password.js lines 10–74) -/

/-- The elements read by `for (let i = 0; i < a.length; i += 4)`: every
fourth entry of the array, starting at index 0 (the red channel). -/
def everyFourth : List Nat → List Nat
  | [] => []
  | [a] => [a]
  | [a, _] => [a]
  | [a, _, _] => [a]
  | a :: _ :: _ :: _ :: rest => a :: everyFourth rest

/-- JavaScript `parseInt(chunk, 2)` on a chunk of binary digits:
left-to-right accumulation, `'1'` contributing 1 and `'0'` contributing 0. -/
def parseBin (acc : Nat) : List Char → Nat
  | [] => acc
  | c :: rest => parseBin (2 * acc + (if c == '1' then 1 else 0)) rest

/-- Method `binaryToHex` (src/js/image-password.js lines 67–74): take the
binary string four characters at a time (`substr(i, 4)` returns the
shorter tail chunk at the end), parse each chunk as binary and render it
with `toString(16)` (lowercase hex via `Nat.toDigits 16`). -/
def binaryToHex : List Char → List Char
  | [] => []
  | [a] => Nat.toDigits 16 (parseBin 0 [a])
  | [a, b] => Nat.toDigits 16 (parseBin 0 [a, b])
  | [a, b, c] => Nat.toDigits 16 (parseBin 0 [a, b, c])
  | a :: b :: c :: d :: rest => Nat.toDigits 16 (parseBin 0 [a, b, c, d]) ++ binaryToHex rest

/-- The mean-threshold bit string of `generateImageHash` (src/js/image-password.js
lines 26–37): the red channel is read with stride 4, summed, averaged by
`sum / (pixelData.length / 4)` (exact in binary floating point, hence `ℚ`),
and each read pixel emits `'1'` iff `pixelData[i] >= avg`. -/
def hashBits (pixelData : List Nat) : List Char :=
  let sum : Nat := (everyFourth pixelData).foldl (· + ·) 0
  let avg : ℚ := (sum : ℚ) / ((pixelData.length : ℚ) / 4)
  (everyFourth pixelData).map (fun (p : Nat) => if avg ≤ (p : ℚ) then '1' else '0')

/-- The fingerprint of a decoded image: the hex encoding of its
mean-threshold bit string. -/
def fingerprintOf (img : DecodedImage) : String :=
  ⟨binaryToHex (hashBits img.pixelData.val)⟩

/-- Method `generateImageHash` (src/js/image-password.js lines 10–47):
load the image (propagating the load failure), normalize to the 8×8
grayscale canvas, and hex-encode the mean-threshold bits. -/
def generateImageHash : ImageFile → Except String String
  | none => .error "Failed to load image"
  | some img => .ok (fingerprintOf img)

/-- Method `generatePassword` (src/js/image-password.js lines 77–80):
one SHA-256 pass over the hash string. -/
def generatePassword (hash : String) : String := sha256 hash

/-- Method `verifyImagePassword` (src/js/image-password.js lines 93–97,
and the fresh-canvas rewrite in src/unnamed/part_003 lines 123–179, which
recomputes the same hash): recompute the fingerprint of the supplied
image, derive the password, and compare with the stored hash. -/
def verifyImagePassword (imageFile : ImageFile) (storedHash : String) :
    Except String Bool := do
  let hash ← generateImageHash imageFile
  let password := generatePassword hash
  pure (password == storedHash)

/-! ## Accounts and the verification policy (src/unnamed/part_003) -/

/-- Account provenance: the `type` field written at registration,
`'uploaded'` (registerAccount) or `'generated'` (generateImagePassword). -/
inductive Provenance
  | uploaded
  | generated
deriving DecidableEq

/-- The credential-bearing part of an account record: the stored
`password` string and its provenance tag. -/
structure Account where
  password : String
  type : Provenance

/-- Credential computation of `registerAccount` (src/unnamed/part_003
lines 295–326): hash the uploaded image, apply `generatePassword`, and
store the result with `type: 'uploaded'`. -/
def registerAccount (imageFile : ImageFile) : Except String Account := do
  let hash ← generateImageHash imageFile
  let password := generatePassword hash
  pure { password := password, type := .uploaded }

/-- Method `verifyImage` (the second, overriding definition in
src/unnamed/part_003 lines 954–1056): for a `'generated'` account the
fingerprint of the supplied image is compared directly against the
stored password; otherwise `verifyImagePassword` compares the SHA-256 of
the fingerprint against it. -/
def verifyImage (account : Account) (imageFile : ImageFile) :
    Except String Bool :=
  match account.type with
  | .generated => do
      let uploadedHash ← generateImageHash imageFile
      pure (uploadedHash == account.password)
  | .uploaded => verifyImagePassword imageFile account.password

/-! ## The shared-canvas flow of `generateImageHash`, with explicit state

Method `generateImageHash` mutates the instance's shared `this.canvas` /
`this.ctx`.  To reason about call-to-call determinism, the same flow is
embedded with the canvas state passed explicitly.  Assigning
`canvas.width` or `canvas.height` resets the bitmap to transparent black
(all-zero bytes), and `drawImage(image, 0, 0, 8, 8)` paints the decoded
image over the entire 8×8 canvas, so the bitmap afterwards is exactly
the image's normalized pixel data. -/

/-- The mutable canvas: its dimensions, the context's filter setting, and
the RGBA bytes of its bitmap. -/
structure CanvasState where
  width : Nat
  height : Nat
  filter : String
  content : List Nat

/-- Assignment `canvas.width = w`: the bitmap is reset to transparent
black at the new size. -/
def setCanvasWidth (c : CanvasState) (w : Nat) : CanvasState :=
  { c with width := w, content := List.replicate (w * c.height * 4) 0 }

/-- Assignment `canvas.height = h`: the bitmap is reset to transparent
black at the new size. -/
def setCanvasHeight (c : CanvasState) (h : Nat) : CanvasState :=
  { c with height := h, content := List.replicate (c.width * h * 4) 0 }

/-- Assignment `ctx.filter = f`. -/
def setFilter (c : CanvasState) (f : String) : CanvasState :=
  { c with filter := f }

/-- Call `ctx.drawImage(image, 0, 0, 8, 8)` on the 8×8 canvas: the draw
covers the whole bitmap, leaving the image's normalized pixel data. -/
def drawImageInto (c : CanvasState) (img : DecodedImage) : CanvasState :=
  { c with content := img.pixelData.val }

/-- Call `ctx.getImageData(0, 0, 8, 8).data`: read the bitmap bytes. -/
def getImageData (c : CanvasState) : List Nat := c.content

/-- Method `generateImageHash` with the shared canvas state explicit
(src/js/image-password.js lines 10–47): load, reset the canvas to 8×8,
set the grayscale filter, draw, read pixels, hash. -/
def generateImageHashSt (st : CanvasState) (imageFile : ImageFile) :
    CanvasState × Except String String :=
  match imageFile with
  | none => (st, .error "Failed to load image")
  | some img =>
    let st1 := setCanvasWidth st 8
    let st2 := setCanvasHeight st1 8
    let st3 := setFilter st2 "grayscale(100%)"
    let st4 := drawImageInto st3 img
    let pixelData := getImageData st4
    (st4, .ok ⟨binaryToHex (hashBits pixelData)⟩)

/-! ## SyntheticImageGenerator (src/unnamed/part_003 lines 675–759)

Method `generateImageFromPassword` draws on a fresh 256×256 canvas; the
rasterization itself is platform code, so the generator is embedded as
the exact sequence of draw commands it issues: a background fill, a list
of shapes, then a stroke setup and five line strokes.  Coordinates and
sizes are JavaScript numbers computed as `byte / 255 * dimension`; these
are exact small rationals, modelled in `ℚ`. -/

/-- An RGB color as written into `fillStyle` / `strokeStyle`. -/
structure RGB where
  r : Nat
  g : Nat
  b : Nat
deriving DecidableEq

/-- The three shape kinds drawn for `shapeType` 0, 1 and 2. -/
inductive ShapeKind
  | circle
  | rect
  | triangle
deriving DecidableEq

/-- One filled shape: kind, fill color with alpha, position and size. -/
structure Shape where
  kind : ShapeKind
  color : RGB
  alpha : ℚ
  x : ℚ
  y : ℚ
  size : ℚ
deriving DecidableEq

/-- One stroked line segment. -/
structure Stroke where
  startX : ℚ
  startY : ℚ
  endX : ℚ
  endY : ℚ
deriving DecidableEq

/-- The full draw-command description of a generated 256×256 image. -/
structure GeneratedImage where
  background : RGB
  shapes : List Shape
  strokeColor : RGB
  lineWidth : Nat
  strokes : List Stroke
deriving DecidableEq

/-- Value of one hexadecimal digit, as `parseInt(·, 16)` reads it (the
inputs here are always lowercase hex). -/
def hexDigitVal (c : Char) : Nat :=
  if '0' ≤ c ∧ c ≤ '9' then c.toNat - 48
  else if 'a' ≤ c ∧ c ≤ 'f' then c.toNat - 87
  else 0

/-- The loop `for (i = 0; i < hash.length; i += 2) values.push(parseInt(hash.substr(i, 2), 16))`:
the digest hex string read two characters at a time as byte values. -/
def hexPairsToBytes : List Char → List Nat
  | [] => []
  | [a] => [hexDigitVal a]
  | a :: b :: rest => (16 * hexDigitVal a + hexDigitVal b) :: hexPairsToBytes rest

/-- The shape chosen from `shapeType`: 0 draws a circle, 1 a filled
rectangle, anything else the filled upward triangle. -/
def shapeKindOf (shapeType : Nat) : ShapeKind :=
  if shapeType == 0 then .circle
  else if shapeType == 1 then .rect
  else .triangle

/-- The `values` array of `generateImageFromPassword` (src/unnamed/part_003
lines 685–691): the bytes of `sha256(password)`, read off the hex digest
two characters at a time. -/
def digestValues (password : String) : List Nat :=
  hexPairsToBytes (sha256 password).data

/-- Method `generateImageFromPassword` (src/unnamed/part_003 lines
675–759), as its draw-command sequence.  The canvas is 256×256; `values`
are the bytes of `sha256(password)`; every indexed read of `values` is
embedded as `List.getD · 0`. -/
def generateImageFromPassword (password : String) : GeneratedImage :=
  let values := digestValues password
  let len := values.length
  let numShapes := 20 + values.getD 3 0 % 30
  let shapes := (List.range numShapes).map (fun i =>
    let colorIndex := (i * 3) % len
    let r := values.getD (colorIndex % len) 0
    let g := values.getD ((colorIndex + 1) % len) 0
    let b := values.getD ((colorIndex + 2) % len) 0
    let shapeType := values.getD ((i + 4) % len) 0 % 3
    let x : ℚ := (values.getD ((i + 5) % len) 0 : ℚ) / 255 * 256
    let y : ℚ := (values.getD ((i + 6) % len) 0 : ℚ) / 255 * 256
    let size : ℚ := 10 + (values.getD ((i + 7) % len) 0 : ℚ) / 255 * 50
    { kind := shapeKindOf shapeType, color := ⟨r, g, b⟩, alpha := 7 / 10,
      x := x, y := y, size := size })
  let strokes := (List.range 5).map (fun i =>
    ({ startX := (values.getD ((i * 2 + 12) % len) 0 : ℚ) / 255 * 256,
       startY := (values.getD ((i * 2 + 13) % len) 0 : ℚ) / 255 * 256,
       endX := (values.getD ((i * 2 + 14) % len) 0 : ℚ) / 255 * 256,
       endY := (values.getD ((i * 2 + 15) % len) 0 : ℚ) / 255 * 256 } : Stroke))
  { background := ⟨values.getD 0 0, values.getD 1 0, values.getD 2 0⟩,
    shapes := shapes,
    strokeColor := ⟨values.getD 8 0, values.getD 9 0, values.getD 10 0⟩,
    lineWidth := 2 + values.getD 11 0 % 4,
    strokes := strokes }

/-- Every index expression `generateImageFromPassword` evaluates to read
`values`, in source order, for digest length `len` and `numShapes` shapes:
the background and shape-count reads at 0–3, the per-shape reads, the
stroke style reads at 8–11, and the per-stroke endpoint reads. -/
def generatorAccessIndices (len numShapes : Nat) : List Nat :=
  [0, 1, 2, 3] ++
  ((List.range numShapes).flatMap (fun i =>
    let colorIndex := (i * 3) % len
    [colorIndex % len, (colorIndex + 1) % len, (colorIndex + 2) % len,
     (i + 4) % len, (i + 5) % len, (i + 6) % len, (i + 7) % len])) ++
  [8, 9, 10, 11] ++
  ((List.range 5).flatMap (fun i =>
    [(i * 2 + 12) % len, (i * 2 + 13) % len, (i * 2 + 14) % len, (i * 2 + 15) % len]))

/-- Credential computation of `generateImagePassword` (src/unnamed/part_003
lines 791–886): render the image generated from the fresh random
password, take the perceptual hash of the rendered blob
(`calculateImagePerceptualHash`, the same normalize-and-hash pipeline),
and store that fingerprint itself as the password with `type: 'generated'`.
The browser's rasterization of the draw commands to a PNG blob and its
re-decoding are platform code, passed in as `rasterize`. -/
def generateImagePassword (rawPassword : String)
    (rasterize : GeneratedImage → DecodedImage) : Account :=
  let imageBlob := generateImageFromPassword rawPassword
  let imageHash := fingerprintOf (rasterize imageBlob)
  { password := imageHash, type := .generated }

/-! ## Spec-side formulation of the average hash (for the refinement claim)

The specification (§4.2) describes the fingerprint over the 8×8 grid of
64 luma values directly; the following definitions transcribe that
wording, to be compared against the source embedding above. -/

/-- A grayscale luma grid embedded as the RGBA byte array the canvas
delivers for it: each luma value becomes one opaque gray pixel
`[v, v, v, 255]`, of which the code reads only the red channel. -/
def rgbaOf (g : List Nat) : List Nat :=
  g.flatMap (fun v => [v, v, v, 255])

/-- Numeric value of one bit character. -/
def bitVal (c : Char) : Nat := if c == '1' then 1 else 0

/-- Spec wording: the arithmetic mean of the (64) luma values. -/
def specMean (g : List Nat) : ℚ := (g.sum : ℚ) / (g.length : ℚ)

/-- Spec wording: for each cell in row-major order, emit bit 1 if
luma ≥ mean else 0 (ties resolve to 1). -/
def specFingerprintBits (g : List Nat) : List Char :=
  g.map (fun (v : Nat) => if (v : ℚ) ≥ specMean g then '1' else '0')

/-- Spec wording: pack bits four at a time, most-significant first, each
group becoming one hex nibble, concatenated in scan order. -/
def specPack : List Char → List Char
  | b0 :: b1 :: b2 :: b3 :: rest =>
      Nat.digitChar (8 * bitVal b0 + 4 * bitVal b1 + 2 * bitVal b2 + bitVal b3) :: specPack rest
  | _ => []

/-- Spec wording: the whole aHash fingerprint of a luma grid. -/
def specFingerprint (g : List Nat) : String :=
  ⟨specPack (specFingerprintBits g)⟩

/-! ## Concrete images for the boundary and error-path claims -/

/-- The lowercase hexadecimal alphabet. -/
def lowerHexDigits : List Char := "0123456789abcdef".data

/-- All-zero pixel data: a freshly reset canvas is transparent black, so
this is what `getImageData` returns when nothing was drawn. -/
def blankPixelData : PixelData := ⟨List.replicate 256 0, by rw [List.length_replicate]⟩

/-- A decoded image whose intrinsic width and height are both zero (for
example a zero-sized SVG): it decodes successfully, and `drawImage` with
a zero-natural-dimension source paints nothing, leaving the reset canvas
all zeros.  The repository code never inspects the dimensions. -/
def zeroDimImage : DecodedImage := ⟨0, 0, blankPixelData⟩

/-! ## Helper lemmas -/

/-- Folding addition over a list is the initial value plus the sum. -/
theorem foldl_add_eq_sum (l : List Nat) (a : Nat) : l.foldl (· + ·) a = a + l.sum := by
  induction l generalizing a with
  | nil => simp
  | cons x xs ih => simp [List.foldl_cons, ih (a + x)]; omega

/-- Unfolded form of `hashBits`. -/
theorem hashBits_eq (pixelData : List Nat) :
    hashBits pixelData = (everyFourth pixelData).map
      (fun (p : Nat) => if (((everyFourth pixelData).foldl (· + ·) 0 : Nat) : ℚ) /
                    ((pixelData.length : ℚ) / 4) ≤ (p : ℚ)
                then '1' else '0') := rfl

/-- Stride-4 reading takes one element per started group of four. -/
theorem everyFourth_length : ∀ l : List Nat, (everyFourth l).length = (l.length + 3) / 4
  | [] => rfl
  | [_] => by simp [everyFourth]
  | [_, _] => by simp [everyFourth]
  | [_, _, _] => by simp [everyFourth]
  | _ :: _ :: _ :: _ :: rest => by
      simp [everyFourth, everyFourth_length rest]
      omega

/-- Unfolding of the grid embedding on a cons cell. -/
theorem rgbaOf_cons (v : Nat) (rest : List Nat) :
    rgbaOf (v :: rest) = v :: v :: v :: 255 :: rgbaOf rest := by
  simp [rgbaOf]

/-- The RGBA embedding of a grid has four bytes per luma value. -/
theorem rgbaOf_length (g : List Nat) : (rgbaOf g).length = 4 * g.length := by
  induction g with
  | nil => rfl
  | cons v rest ih =>
      rw [rgbaOf_cons]
      simp [ih]
      omega

/-- Reading every fourth byte of the RGBA embedding recovers the grid. -/
theorem everyFourth_rgbaOf (g : List Nat) : everyFourth (rgbaOf g) = g := by
  induction g with
  | nil => rfl
  | cons v rest ih =>
      rw [rgbaOf_cons]
      simp [everyFourth, ih]

/-- Accumulator bound for binary parsing. -/
theorem parseBin_lt (l : List Char) : ∀ acc : Nat, parseBin acc l < (acc + 1) * 2 ^ l.length := by
  induction l with
  | nil => intro acc; simp [parseBin]
  | cons c rest ih =>
      intro acc
      have hb : (if c == '1' then 1 else 0) ≤ 1 := by split <;> omega
      have h1 : parseBin acc (c :: rest)
          = parseBin (2 * acc + (if c == '1' then 1 else 0)) rest := rfl
      have h2 := ih (2 * acc + (if c == '1' then 1 else 0))
      have h3 : (2 * acc + (if c == '1' then 1 else 0) + 1) * 2 ^ rest.length
          ≤ ((acc + 1) * 2) * 2 ^ rest.length :=
        Nat.mul_le_mul_right _ (by omega)
      have h4 : ((acc + 1) * 2) * 2 ^ rest.length = (acc + 1) * 2 ^ (rest.length + 1) := by
        rw [pow_succ]; ring
      calc parseBin acc (c :: rest)
          = parseBin (2 * acc + (if c == '1' then 1 else 0)) rest := h1
        _ < (2 * acc + (if c == '1' then 1 else 0) + 1) * 2 ^ rest.length := h2
        _ ≤ (acc + 1) * 2 ^ (rest.length + 1) := by rw [← h4]; exact h3
        _ = (acc + 1) * 2 ^ (c :: rest).length := by rw [List.length_cons]

/-- A chunk of at most four binary digits parses below 16. -/
theorem parseBin0_lt_16 (l : List Char) (h : l.length ≤ 4) : parseBin 0 l < 16 := by
  have h1 := parseBin_lt l 0
  have h2 : 2 ^ l.length ≤ 2 ^ 4 := Nat.pow_le_pow_right (by omega) h
  omega

/-- Lowercase rendering of a single hex digit. -/
theorem toDigits16_eq : ∀ n < 16, Nat.toDigits 16 n = [Nat.digitChar n] := by decide

/-- Hex encoding emits one character per started group of four bits. -/
theorem binaryToHex_length : ∀ l : List Char, (binaryToHex l).length = (l.length + 3) / 4
  | [] => rfl
  | [a] => by
      rw [show binaryToHex [a] = Nat.toDigits 16 (parseBin 0 [a]) from rfl,
          toDigits16_eq _ (parseBin0_lt_16 _ (by simp))]
      simp
  | [a, b] => by
      rw [show binaryToHex [a, b] = Nat.toDigits 16 (parseBin 0 [a, b]) from rfl,
          toDigits16_eq _ (parseBin0_lt_16 _ (by simp))]
      simp
  | [a, b, c] => by
      rw [show binaryToHex [a, b, c] = Nat.toDigits 16 (parseBin 0 [a, b, c]) from rfl,
          toDigits16_eq _ (parseBin0_lt_16 _ (by simp))]
      simp
  | a :: b :: c :: d :: rest => by
      rw [show binaryToHex (a :: b :: c :: d :: rest)
            = Nat.toDigits 16 (parseBin 0 [a, b, c, d]) ++ binaryToHex rest from rfl,
          toDigits16_eq _ (parseBin0_lt_16 _ (by simp)),
          List.length_append, binaryToHex_length rest]
      simp
      omega

/-- The source hex packing agrees with the spec packing on bit strings
whose length is a multiple of four. -/
theorem binaryToHex_eq_specPack :
    ∀ l : List Char, l.length % 4 = 0 → binaryToHex l = specPack l
  | [], _ => rfl
  | [_], h => by simp at h
  | [_, _], h => by simp at h
  | [_, _, _], h => by simp at h
  | a :: b :: c :: d :: rest, h => by
      have hr : rest.length % 4 = 0 := by
        simp [List.length_cons] at h
        omega
      have hv : parseBin 0 [a, b, c, d]
          = 8 * bitVal a + 4 * bitVal b + 2 * bitVal c + bitVal d := by
        simp only [parseBin, bitVal]
        split_ifs <;> rfl
      rw [show binaryToHex (a :: b :: c :: d :: rest)
            = Nat.toDigits 16 (parseBin 0 [a, b, c, d]) ++ binaryToHex rest from rfl,
          toDigits16_eq _ (parseBin0_lt_16 _ (by simp)), hv,
          binaryToHex_eq_specPack rest hr]
      rfl

/-- The spec packing emits one nibble per complete group of four bits. -/
theorem specPack_length : ∀ l : List Char, (specPack l).length = l.length / 4
  | [] => rfl
  | [_] => by simp [specPack]
  | [_, _] => by simp [specPack]
  | [_, _, _] => by simp [specPack]
  | _ :: _ :: _ :: _ :: rest => by
      rw [show specPack (_ :: _ :: _ :: _ :: rest)
            = Nat.digitChar _ :: specPack rest from rfl]
      simp [specPack_length rest]
      omega

/-- Reading hex two characters at a time yields one byte per started pair. -/
theorem hexPairsToBytes_length :
    ∀ l : List Char, (hexPairsToBytes l).length = (l.length + 1) / 2
  | [] => rfl
  | [_] => by simp [hexPairsToBytes]
  | _ :: _ :: rest => by
      rw [show hexPairsToBytes (_ :: _ :: rest) = _ :: hexPairsToBytes rest from rfl]
      simp [hexPairsToBytes_length rest]
      omega

/-- A SHA-256 digest has exactly 32 bytes. -/
theorem sha256Bytes_length (msg : List Nat) : (sha256Bytes msg).length = 32 := by
  simp [sha256Bytes, u32be]

/-- Every digest byte is below 256. -/
theorem mem_sha256Bytes_lt (msg : List Nat) : ∀ b ∈ sha256Bytes msg, b < 256 := by
  intro b hb
  simp [sha256Bytes, u32be] at hb
  omega

set_option maxRecDepth 4000 in
/-- A byte renders as exactly two lowercase hex characters. -/
theorem byteToHexPair_facts :
    ∀ b < 256, (byteToHexPair b).length = 2 ∧ ∀ c ∈ byteToHexPair b, c ∈ lowerHexDigits := by
  decide

/-- Character count of the hex rendering of a byte list. -/
theorem bytesToHex_data_length (bytes : List Nat) (h : ∀ b ∈ bytes, b < 256) :
    (bytes.flatMap byteToHexPair).length = 2 * bytes.length := by
  induction bytes with
  | nil => rfl
  | cons x xs ih =>
      have hx := (byteToHexPair_facts x (h x (by simp))).1
      have hxs := ih (fun b hb => h b (by simp [hb]))
      simp [List.flatMap_cons, hx, hxs]
      omega

/-- The derived credential is a 64-character string. -/
theorem sha256_length (s : String) : (sha256 s).length = 64 := by
  show (String.mk ((sha256Bytes (utf8Encode s)).flatMap byteToHexPair)).length = 64
  rw [String.length_mk, bytesToHex_data_length _ (mem_sha256Bytes_lt _), sha256Bytes_length]

/-- Every character of a derived credential is a lowercase hex digit. -/
theorem sha256_chars (s : String) : ∀ c ∈ (sha256 s).data, c ∈ lowerHexDigits := by
  intro c hc
  have h : (sha256 s).data = (sha256Bytes (utf8Encode s)).flatMap byteToHexPair := rfl
  rw [h, List.mem_flatMap] at hc
  obtain ⟨b, hb, hcb⟩ := hc
  exact (byteToHexPair_facts b (mem_sha256Bytes_lt _ b hb)).2 c hcb

/-- The bit string has one bit per started group of four pixel bytes. -/
theorem hashBits_length (pixelData : List Nat) :
    (hashBits pixelData).length = (pixelData.length + 3) / 4 := by
  rw [hashBits_eq, List.length_map, everyFourth_length]

/-- A fingerprint is a 16-character hex string. -/
theorem fingerprintOf_length (img : DecodedImage) : (fingerprintOf img).length = 16 := by
  show (String.mk (binaryToHex (hashBits img.pixelData.val))).length = 16
  rw [String.length_mk, binaryToHex_length, hashBits_length, img.pixelData.property]

/-- The `values` array always has 32 entries. -/
theorem digestValues_length (password : String) : (digestValues password).length = 32 := by
  show (hexPairsToBytes (sha256 password).data).length = 32
  have h : (sha256 password).data.length = 64 := by
    rw [show (sha256 password).data.length = (sha256 password).length from rfl,
        sha256_length]
  rw [hexPairsToBytes_length, h]

/-- Stride-4 reading of a replicated list of quadruple length. -/
theorem everyFourth_replicate (n x : Nat) :
    everyFourth (List.replicate (4 * n) x) = List.replicate n x := by
  induction n with
  | zero => rfl
  | succ m ih =>
      have h : List.replicate (4 * (m + 1)) x
          = x :: x :: x :: x :: List.replicate (4 * m) x := by
        have : 4 * (m + 1) = (((4 * m).succ).succ).succ.succ := by omega
        simp [this, List.replicate_succ]
      rw [h]
      simp [everyFourth, ih, List.replicate_succ]

/-- The blank canvas hashes to the all-ones bit string: the average of
all zeros is zero and the threshold is not strict. -/
theorem hashBits_blank : hashBits (List.replicate 256 0) = List.replicate 64 '1' := by
  rw [hashBits_eq]
  have he : everyFourth (List.replicate 256 0) = List.replicate 64 0 :=
    everyFourth_replicate 64 0
  have hsum : (List.replicate 64 (0 : Nat)).foldl (· + ·) 0 = 0 := by
    rw [foldl_add_eq_sum]
    simp
  simp only [he, hsum, List.length_replicate, List.map_replicate]
  norm_num

/-! ## The claims -/

/-- C1: `verify` branches on the account's provenance with different
formulas: an uploaded account matches iff the SHA-256 of the supplied
image's fingerprint equals the stored credential (which registration
stored as `sha256(fingerprint)`), a generated account matches iff the
fingerprint itself equals the stored credential (which registration
stored as the fingerprint, unhashed), and no stored hex string can make
both branches accept the same decoded image. -/
theorem verify_branches_by_provenance (img : DecodedImage) (stored : String) :
    verifyImage ⟨stored, .uploaded⟩ (some img) = .ok (sha256 (fingerprintOf img) == stored)
    ∧ verifyImage ⟨stored, .generated⟩ (some img) = .ok (fingerprintOf img == stored)
    ∧ registerAccount (some img) = .ok ⟨sha256 (fingerprintOf img), .uploaded⟩
    ∧ (∀ (raw : String) (rasterize : GeneratedImage → DecodedImage),
        generateImagePassword raw rasterize
          = ⟨fingerprintOf (rasterize (generateImageFromPassword raw)), .generated⟩)
    ∧ ¬(verifyImage ⟨stored, .uploaded⟩ (some img) = .ok true
        ∧ verifyImage ⟨stored, .generated⟩ (some img) = .ok true) := by
  refine ⟨rfl, rfl, rfl, fun _ _ => rfl, ?_⟩
  rintro ⟨h1, h2⟩
  have e1 : (Except.ok (sha256 (fingerprintOf img) == stored) : Except String Bool)
      = Except.ok true := h1
  have e2 : (Except.ok (fingerprintOf img == stored) : Except String Bool)
      = Except.ok true := h2
  have s1 : sha256 (fingerprintOf img) = stored := eq_of_beq (Except.ok.inj e1)
  have s2 : fingerprintOf img = stored := eq_of_beq (Except.ok.inj e2)
  have hlen := congrArg String.length (s1.trans s2.symm)
  rw [sha256_length, fingerprintOf_length] at hlen
  omega

/-- Witness for C1 at a concrete decoded image and stored string. -/
theorem verify_branches_by_provenance_witness :
    verifyImage ⟨"s", .uploaded⟩ (some zeroDimImage)
      = .ok (sha256 (fingerprintOf zeroDimImage) == "s")
    ∧ verifyImage ⟨"s", .generated⟩ (some zeroDimImage)
      = .ok (fingerprintOf zeroDimImage == "s")
    ∧ registerAccount (some zeroDimImage)
      = .ok ⟨sha256 (fingerprintOf zeroDimImage), .uploaded⟩
    ∧ generateImagePassword "seed" (fun _ => zeroDimImage)
      = ⟨fingerprintOf zeroDimImage, .generated⟩
    ∧ ¬(verifyImage ⟨"s", .uploaded⟩ (some zeroDimImage) = .ok true
        ∧ verifyImage ⟨"s", .generated⟩ (some zeroDimImage) = .ok true) :=
  ⟨(verify_branches_by_provenance zeroDimImage "s").1,
   (verify_branches_by_provenance zeroDimImage "s").2.1,
   (verify_branches_by_provenance zeroDimImage "s").2.2.1,
   (verify_branches_by_provenance zeroDimImage "s").2.2.2.1 "seed" (fun _ => zeroDimImage),
   (verify_branches_by_provenance zeroDimImage "s").2.2.2.2⟩

/-- C2: registering an image that decodes successfully stores
`sha256(hash(I))` — the SHA-256 of the 16-character fingerprint — as an
uploaded-provenance credential, and verifying the same image against
that credential succeeds. -/
theorem upload_round_trip (img : DecodedImage) :
    registerAccount (some img) = .ok ⟨sha256 (fingerprintOf img), .uploaded⟩
    ∧ (fingerprintOf img).length = 16
    ∧ verifyImagePassword (some img) (sha256 (fingerprintOf img)) = .ok true := by
  refine ⟨rfl, fingerprintOf_length img, ?_⟩
  show (Except.ok (sha256 (fingerprintOf img) == sha256 (fingerprintOf img)) :
      Except String Bool) = Except.ok true
  rw [beq_self_eq_true]

/-- C3: the source hash over a 64-value luma grid (embedded as its RGBA
byte array) is exactly the spec's average hash: threshold each value
against the arithmetic mean with ties going to 1 and pack the 64 bits
four at a time, most-significant first, into a 16-character hex string. -/
theorem average_hash_matches_spec (w h : Nat) (g : List Nat) (hg : g.length = 64) :
    generateImageHash (some ⟨w, h, ⟨rgbaOf g, by rw [rgbaOf_length, hg]⟩⟩)
      = .ok (specFingerprint g)
    ∧ (specFingerprint g).length = 16 := by
  have hm : (((g.foldl (· + ·) 0 : Nat) : ℚ)) / (((rgbaOf g).length : ℚ) / 4)
      = specMean g := by
    rw [foldl_add_eq_sum, rgbaOf_length, hg]
    unfold specMean
    rw [hg]
    push_cast
    norm_num
  have hbits : hashBits (rgbaOf g) = specFingerprintBits g := by
    rw [hashBits_eq]
    simp only [everyFourth_rgbaOf, hm]
    unfold specFingerprintBits
    simp only [ge_iff_le]
  have hfour : (specFingerprintBits g).length % 4 = 0 := by
    unfold specFingerprintBits
    rw [List.length_map, hg]
  constructor
  · show (Except.ok (⟨binaryToHex (hashBits (rgbaOf g))⟩ : String) : Except String String)
        = Except.ok (specFingerprint g)
    rw [hbits, binaryToHex_eq_specPack _ hfour]
    rfl
  · show (String.mk (specPack (specFingerprintBits g))).length = 16
    rw [String.length_mk, specPack_length]
    unfold specFingerprintBits
    rw [List.length_map, hg]

/-- Witness for C3 at a concrete 64-value grid. -/
theorem average_hash_matches_spec_witness :
    generateImageHash (some ⟨0, 0, ⟨rgbaOf (List.range 64),
        by rw [rgbaOf_length, List.length_range]⟩⟩)
      = .ok (specFingerprint (List.range 64))
    ∧ (specFingerprint (List.range 64)).length = 16 :=
  average_hash_matches_spec 0 0 (List.range 64) (by simp)

/-- C4: hashing is deterministic — the result of the shared-canvas
`generateImageHash` does not depend on the canvas state left by earlier
calls and coincides with the pure pipeline — and the synthetic image
generator is a function of the seed's digest alone, so re-running it on
a fixed seed reproduces the identical image. -/
theorem hashing_and_generation_deterministic :
    (∀ (st1 st2 : CanvasState) (imageFile : ImageFile),
      (generateImageHashSt st1 imageFile).2 = (generateImageHashSt st2 imageFile).2)
    ∧ (∀ (st : CanvasState) (imageFile : ImageFile),
      (generateImageHashSt st imageFile).2 = generateImageHash imageFile)
    ∧ (∀ seed1 seed2 : String, sha256 seed1 = sha256 seed2 →
      generateImageFromPassword seed1 = generateImageFromPassword seed2) := by
  refine ⟨?_, ?_, ?_⟩
  · intro st1 st2 imageFile
    cases imageFile with
    | none => rfl
    | some img => rfl
  · intro st imageFile
    cases imageFile with
    | none => rfl
    | some img => rfl
  · intro seed1 seed2 h
    simp only [generateImageFromPassword, digestValues, h]

/-- Witness for C4 at concrete canvas states, file and seed. -/
theorem hashing_and_generation_deterministic_witness :
    (generateImageHashSt ⟨0, 0, "", []⟩ none).2 = (generateImageHashSt ⟨2, 3, "g", [7]⟩ none).2
    ∧ (generateImageHashSt ⟨0, 0, "", []⟩ none).2 = generateImageHash none
    ∧ generateImageFromPassword "seed" = generateImageFromPassword "seed" :=
  ⟨hashing_and_generation_deterministic.1 ⟨0, 0, "", []⟩ ⟨2, 3, "g", [7]⟩ none,
   hashing_and_generation_deterministic.2.1 ⟨0, 0, "", []⟩ none,
   hashing_and_generation_deterministic.2.2 "seed" "seed" rfl⟩

/-- C5: for every seed, the generator follows the wire format driven by
the 32 digest bytes: background `rgb(values[0..2])`, exactly
`20 + values[3] % 30` shapes whose kind is `values[(i+4) % 32] % 3`
(circle, rectangle, triangle) with color bytes at `(i*3) % 32`, `+1`,
`+2` at alpha 0.7 and size 10 plus a byte scaled into `[0, 50]`, and
exactly 5 line strokes of width `2 + values[11] % 4`. -/
theorem generator_wire_format (password : String) :
    (digestValues password).length = 32
    ∧ generateImageFromPassword password =
      { background := ⟨(digestValues password).getD 0 0, (digestValues password).getD 1 0,
          (digestValues password).getD 2 0⟩,
        shapes := (List.range (20 + (digestValues password).getD 3 0 % 30)).map (fun i =>
          { kind := shapeKindOf ((digestValues password).getD ((i + 4) % 32) 0 % 3),
            color := ⟨(digestValues password).getD (i * 3 % 32) 0,
                      (digestValues password).getD ((i * 3 + 1) % 32) 0,
                      (digestValues password).getD ((i * 3 + 2) % 32) 0⟩,
            alpha := 7 / 10,
            x := ((digestValues password).getD ((i + 5) % 32) 0 : ℚ) / 255 * 256,
            y := ((digestValues password).getD ((i + 6) % 32) 0 : ℚ) / 255 * 256,
            size := 10 + ((digestValues password).getD ((i + 7) % 32) 0 : ℚ) / 255 * 50 }),
        strokeColor := ⟨(digestValues password).getD 8 0, (digestValues password).getD 9 0,
          (digestValues password).getD 10 0⟩,
        lineWidth := 2 + (digestValues password).getD 11 0 % 4,
        strokes := (List.range 5).map (fun i =>
          { startX := ((digestValues password).getD ((i * 2 + 12) % 32) 0 : ℚ) / 255 * 256,
            startY := ((digestValues password).getD ((i * 2 + 13) % 32) 0 : ℚ) / 255 * 256,
            endX := ((digestValues password).getD ((i * 2 + 14) % 32) 0 : ℚ) / 255 * 256,
            endY := ((digestValues password).getD ((i * 2 + 15) % 32) 0 : ℚ) / 255 * 256 }) } := by
  refine ⟨digestValues_length password, ?_⟩
  have h1 : ∀ i : Nat, i * 3 % 32 % 32 = i * 3 % 32 := fun i => by omega
  have h2 : ∀ i : Nat, (i * 3 % 32 + 1) % 32 = (i * 3 + 1) % 32 := fun i => by omega
  have h3 : ∀ i : Nat, (i * 3 % 32 + 2) % 32 = (i * 3 + 2) % 32 := fun i => by omega
  simp only [generateImageFromPassword, digestValues_length password, h1, h2, h3]

/-- C6: credential derivation is a single SHA-256 pass over the UTF-8
bytes, hex-encoded: every derived credential is a 64-character lowercase
hex string, and every fingerprint has 64 bits, i.e. 16 hex characters. -/
theorem credential_and_fingerprint_format (s : String) (img : DecodedImage) :
    sha256 s = bytesToHex (sha256Bytes (utf8Encode s))
    ∧ (sha256 s).length = 64
    ∧ (∀ c ∈ (sha256 s).data, c ∈ lowerHexDigits)
    ∧ (hashBits img.pixelData.val).length = 64
    ∧ (fingerprintOf img).length = 16 := by
  refine ⟨rfl, sha256_length s, sha256_chars s, ?_, fingerprintOf_length img⟩
  rw [hashBits_length, img.pixelData.property]

set_option maxRecDepth 100000 in
/-- Witness for C6 at a concrete message, character and image. -/
theorem credential_and_fingerprint_format_witness :
    (sha256 "abc").length = 64
    ∧ 'b' ∈ lowerHexDigits
    ∧ (fingerprintOf zeroDimImage).length = 16 :=
  ⟨(credential_and_fingerprint_format "abc" zeroDimImage).2.1,
   (credential_and_fingerprint_format "abc" zeroDimImage).2.2.1 'b' (by decide),
   (credential_and_fingerprint_format "abc" zeroDimImage).2.2.2.2⟩

/-- C7: a fully uniform single-color 8×8 grid hashes without error, and
since every cell equals the mean and the threshold is `>=` (ties resolve
to 1), every bit is 1: the fingerprint is the all-ones pattern. -/
theorem uniform_grid_all_ones (v w h : Nat) :
    hashBits (rgbaOf (List.replicate 64 v)) = List.replicate 64 '1'
    ∧ generateImageHash (some ⟨w, h,
        ⟨rgbaOf (List.replicate 64 v), by rw [rgbaOf_length, List.length_replicate]⟩⟩)
      = .ok "ffffffffffffffff" := by
  have hsum : (List.replicate 64 v).foldl (· + ·) 0 = 64 * v := by
    rw [foldl_add_eq_sum, List.sum_replicate]
    simp [smul_eq_mul]
  have havg : ((64 * v : Nat) : ℚ) / (((4 * 64 : Nat) : ℚ) / 4) = (v : ℚ) := by
    push_cast
    rw [show ((256 : ℚ)) / 4 = 64 by norm_num, mul_comm, mul_div_assoc,
        div_self (by norm_num : (64 : ℚ) ≠ 0), mul_one]
  have hbits : hashBits (rgbaOf (List.replicate 64 v)) = List.replicate 64 '1' := by
    rw [hashBits_eq]
    simp only [everyFourth_rgbaOf, rgbaOf_length, List.length_replicate, hsum, havg,
               List.map_replicate]
    simp
  refine ⟨hbits, ?_⟩
  show (Except.ok (⟨binaryToHex (hashBits (rgbaOf (List.replicate 64 v)))⟩ : String) :
      Except String String) = Except.ok "ffffffffffffffff"
  rw [hbits]
  exact congrArg Except.ok (by decide)

/-- C8: an image that cannot be decoded makes verification fail with the
load error for every account, and in particular never yields a silent
match. -/
theorem undecodable_image_fails_verification (account : Account) :
    verifyImage account none = .error "Failed to load image"
    ∧ verifyImage account none ≠ .ok true := by
  obtain ⟨pw, ty⟩ := account
  cases ty with
  | uploaded => exact ⟨rfl, fun h => Except.noConfusion h⟩
  | generated => exact ⟨rfl, fun h => Except.noConfusion h⟩

/-- Witness for C8 at a concrete account. -/
theorem undecodable_image_fails_verification_witness :
    verifyImage ⟨"pw", .uploaded⟩ none = .error "Failed to load image"
    ∧ verifyImage ⟨"pw", .uploaded⟩ none ≠ .ok true :=
  undecodable_image_fails_verification ⟨"pw", .uploaded⟩

/-- Counterexample to C9: a decoded image of zero intrinsic width and
height is hashed successfully (the blank canvas gives the all-ones
fingerprint); no dimension error is raised. -/
theorem zero_dim_image_still_hashes :
    generateImageHash (some zeroDimImage) = .ok "ffffffffffffffff" := by
  show (Except.ok (⟨binaryToHex (hashBits (List.replicate 256 0))⟩ : String) :
      Except String String) = Except.ok "ffffffffffffffff"
  rw [hashBits_blank]
  exact congrArg Except.ok (by decide)

/-- C9 (amended): normalization fails with the decode error for every
input that is not a valid image, and that is the only failure mode — a
decoded image proceeds to a fingerprint whatever its dimensions, with no
dimension check. -/
theorem normalization_error_paths (img : DecodedImage) :
    generateImageHash none = Except.error "Failed to load image"
    ∧ generateImageHash (some img) = .ok (fingerprintOf img) :=
  ⟨rfl, rfl⟩

/-- C10: every read of the 32-byte digest array in the generator is
index-reduced modulo the array length or a fixed index below 12, so all
accesses are in bounds for every seed and every shape or stroke index. -/
theorem generator_reads_in_bounds (password : String) :
    (digestValues password).length = 32
    ∧ ∀ idx ∈ generatorAccessIndices (digestValues password).length
        (20 + (digestValues password).getD 3 0 % 30),
      idx < (digestValues password).length := by
  refine ⟨digestValues_length password, ?_⟩
  intro idx hidx
  rw [digestValues_length] at hidx ⊢
  simp only [generatorAccessIndices, List.mem_append, List.mem_flatMap, List.mem_range,
             List.mem_cons, List.not_mem_nil, or_false] at hidx
  rcases hidx with h | ⟨i, -, h⟩ | h | ⟨i, -, h⟩ <;> omega

/-- Witness for C10 at a concrete seed and the first access index. -/
theorem generator_reads_in_bounds_witness :
    (digestValues "abc").length = 32 ∧ 0 < (digestValues "abc").length :=
  ⟨(generator_reads_in_bounds "abc").1,
   (generator_reads_in_bounds "abc").2 0 (by simp [generatorAccessIndices])⟩

end ImagePasswordApp
